import Mathlib

/-!
Verification of the DataStructure repository (growable `user::Vector` over an
allocation strategy, plus two pool allocators) against its natural-language
specification.  The C++ sources are shallowly embedded: element buffers become
Lean lists, the three cursors `M_start`/`M_finish`/`M_end_of_shorage` become a
list of live elements plus a capacity count, fallible operations (C++
exceptions) become `Except`, and `std::size_t` arithmetic is `Nat` with an
explicit `% 2 ^ 64` where the source can wrap.
-/

namespace DataStructure

/-- Error kinds thrown by the sources: `std::length_error`, `std::bad_alloc`,
`std::invalid_argument`, `std::out_of_range`, `std::runtime_error`. -/
inductive Err where
  | lengthError
  | outOfMemory
  | invalidArgument
  | outOfRange
  | runtimeError
  deriving DecidableEq, Repr

/-! ## Vector model

`vector.hpp` / `vectorbase.hpp`: a `Vector` owns one contiguous allocation.
Elements in `[M_start, M_finish)` are live; `[M_finish, M_end_of_shorage)` is
raw.  We model the live range as a `List α` and the whole allocation size
(`M_end_of_shorage - M_start`) as `cap`. -/

structure VecState (α : Type) where
  data : List α
  cap : Nat
  deriving DecidableEq, Repr

namespace VecState

/-- `Vector::size()`:  `M_finish - M_start`. -/
def size (v : VecState α) : Nat := v.data.length

end VecState

/-- Word size of `std::size_t` on the target platform. -/
def W64 : Nat := 2 ^ 64

/-- Wrapping unsigned addition on `size_t`. -/
def wadd (a b : Nat) : Nat := (a + b) % W64

/-- Wrapping unsigned subtraction on `size_t` (both arguments below `2^64`). -/
def wsub (a b : Nat) : Nat := (a + W64 - b) % W64

/-- `Vector::S_max_size()` (vector.hpp:685-692): minimum of the
pointer-difference bound `PTRDIFF_MAX / sizeof(Tp)` and the allocator's
`max_size()`.  Both are parameters of the model. -/
def S_max_size (diffmax allocmax : Nat) : Nat := min diffmax allocmax

/-- `Vector::S_check_init_len` (vector.hpp:672-679): throws
`std::length_error` when `n > S_max_size()`, otherwise returns `n`. -/
def S_check_init_len (maxSize n : Nat) : Except Err Nat :=
  if n > maxSize then .error .lengthError else .ok n

/-- `Vector::M_check_len` (vector.hpp:656-665) with the unsigned `size_t`
arithmetic of the source:  throws `std::length_error` when
`max_size() - size() < n`; otherwise computes `len = size() + max(size(), n)`
and returns `max_size()` when `len` wrapped or exceeds `max_size()`. -/
def M_check_len (maxSize s n : Nat) : Except Err Nat :=
  if wsub maxSize s < n then .error .lengthError
  else
    let len := wadd s (max s n)
    .ok (if len < s ∨ len > maxSize then maxSize else len)

/-- `VectorBase::M_create_storage` (vectorbase.hpp:125-132): allocates `n`
slots; the new buffer has no live element and capacity `n`. -/
def M_create_storage (α : Type) (n : Nat) : VecState α := ⟨[], n⟩

/-- `Vector::M_default_initialize` (vector.hpp:441-444):
`std::uninitialized_default_construct_n` over the first `n` raw slots.  The
element type's default constructor is modelled as producing the fixed value
`d`. -/
def M_default_initialize (v : VecState α) (n : Nat) (d : α) : VecState α :=
  ⟨List.replicate n d, v.cap⟩

/-- `Vector::M_fill_initialize` (vector.hpp:577-581):
`std::uninitialized_fill_n(M_start, n, value)`. -/
def M_fill_initialize (v : VecState α) (n : Nat) (value : α) : VecState α :=
  ⟨List.replicate n value, v.cap⟩

/-- `Vector::Vector(n)` (vector.hpp:57-59): `Base(S_check_init_len(n))`
followed by `M_default_initialize(n)`; `d` is the value the element type's
default constructor produces. -/
def vectorCreateDefault (maxSize n : Nat) (d : α) : Except Err (VecState α) :=
  (S_check_init_len maxSize n).map fun m =>
    M_default_initialize (M_create_storage α m) n d

/-- `Vector::Vector(n, value)` (vector.hpp:66-69): `Base(S_check_init_len(n))`
followed by `M_fill_initialize(n, value)`. -/
def vectorCreateFill (maxSize n : Nat) (value : α) : Except Err (VecState α) :=
  (S_check_init_len maxSize n).map fun m =>
    M_fill_initialize (M_create_storage α m) n value

/-- `std::copy(first, last, d_first)` where the destination is the start of a
buffer currently holding `dst`: overwrites the prefix of `dst` with `src`. -/
def listCopyInto (src dst : List α) : List α := src ++ dst.drop src.length

/-- `Vector::M_erase_at_end(pos)` (vector.hpp:449-454) with `pos` the cursor
`M_start + n`: destroys `[pos, M_finish)` when `M_finish > pos`. -/
def M_erase_at_end (v : VecState α) (n : Nat) : VecState α :=
  if v.data.length > n then ⟨v.data.take n, v.cap⟩ else v

/-- `Vector::operator=(const Vector&)` (vector.hpp:147-209), for
`other ≠ this` (the source short-circuits self assignment by address), with a
stateless always-equal allocator (so the `pocca` branch changes nothing).
Three cases by `other.size()` against capacity and size; note that case 3
performs `std::copy(this->M_start, this->M_start + this->size(),
this->M_start)` — it reads from `this`, not from `other`. -/
def copyAssign (a b : VecState α) : VecState α :=
  let otherSize := b.data.length
  if otherSize > a.cap then
    -- M_allocate_and_copy(other_size, other.begin(), other.end()), destroy
    -- and deallocate the old block, adopt the new one.
    ⟨b.data, otherSize⟩
  else if a.data.length ≥ otherSize then
    -- std::destroy(std::copy(other.begin(), other.end(), this->begin()),
    --              this->end());  then M_finish = M_start + other_size
    ⟨(listCopyInto b.data a.data).take otherSize, a.cap⟩
  else
    -- std::copy(this->M_start, this->M_start + this->size(), this->M_start);
    -- std::uninitialized_copy(other.M_start + this->size(), other.M_finish,
    --                         this->M_finish);
    -- then M_finish = M_start + other_size
    ⟨listCopyInto (a.data.take a.data.length) a.data
        ++ b.data.drop a.data.length, a.cap⟩

/-! ## Move semantics (claim C3)

For move construction and move assignment the null-ness of `M_start` is
observable ("storage-less"), so this model keeps the start pointer as an
`Option Nat` address. -/

structure VecB (α : Type) where
  start : Option Nat
  data : List α
  cap : Nat
  deriving DecidableEq, Repr

/-- `VectorBase::VectorBase()` (vectorbase.hpp:60-61): all three cursors value
initialised to null. -/
def defaultVecB (α : Type) : VecB α := ⟨none, [], 0⟩

/-- `Vector::operator=(Vector&&)` (vector.hpp:216-219): unconditionally
`M_swap_data(other)` — the two objects exchange their three cursors.  Returns
(new `*this`, `other` after the call). -/
def moveAssign (dst src : VecB α) : VecB α × VecB α := (src, dst)

/-- `Vector(Vector&&, std::true_type)` (vector.hpp:84-85): the always-equal
path delegates to the `VectorBase` move constructor (vectorbase.hpp:65-70),
which takes the three cursors and nulls the source's.  Returns (constructed
vector, source after the call). -/
def moveCtorAlwaysEq (rv : VecB α) : VecB α × VecB α := (rv, defaultVecB α)

/-- `Vector(Vector&&, std::false_type)` (vector.hpp:90-98): when the source is
non-empty, `M_create_storage(rv.size())` at a fresh address `a`, move each
element across, then `rv.clear()` (which destroys the elements but keeps the
source's storage).  When the source is empty nothing happens.  Returns
(constructed vector, source after the call). -/
def moveCtorNotAlwaysEq (a : Nat) (rv : VecB α) : VecB α × VecB α :=
  if rv.data.isEmpty then (defaultVecB α, rv)
  else (⟨some a, rv.data, rv.data.length⟩, { rv with data := [] })

/-! ## Growth path: `emplace_back` / `M_realloc_insert` (claims C1, C4)

`M_realloc_insert` (vector.hpp:613-647) constructs the new element in the new
block first, then transfers the old elements with `move_or_copy` (the
`uninitialized_move_or_copy` helper of smallutility.hpp:23-42, which has the
cleanup semantics of `std::uninitialized_move`: on a failing element transfer
it destroys the destination elements it itself constructed).  The `catch`
block destroys `[new_start, new_finish)` and releases the new block.

Failures are injected through `mkNew` (the element constructor invoked at the
insertion point) and `tr i x` (the transfer of the element at old index `i`,
holding `x`). -/

/-- `std::uninitialized_move` / `std::uninitialized_copy` of a source range
through the fallible per-element transfer `tr`: on success the transferred
values, on failure the error (everything the call itself constructed has been
destroyed again, per the standard's guarantee). -/
def uninitTransfer (tr : Nat → α → Except Err α) :
    Nat → List α → Except Err (List α)
  | _, [] => .ok []
  | i, x :: xs =>
    match tr i x with
    | .error e => .error e
    | .ok y =>
      match uninitTransfer tr (i + 1) xs with
      | .error e => .error e
      | .ok ys => .ok (y :: ys)

/-- Observable outcome of an `emplace_back` call.  `result` is the vector
after the call (unchanged on error, since the cursors are only reassigned
after the `try` block).  `newLeaked` lists the cells of the new block that
stay constructed after the error handling (indices into the new block);
`newFreed` says whether the new block was released; `allocLen` is the size of
the block the growth path allocated (`none` when no reallocation happened). -/
structure EmplaceOutcome (α : Type) where
  result : Except Err (VecState α)
  newLeaked : List Nat
  newFreed : Bool
  allocLen : Option Nat
  deriving Repr

/-- `Vector::M_realloc_insert(position, args...)` (vector.hpp:613-647) with
`elems_before = position - begin()` given as `pos`.  Mirrors the source:
check length, allocate `len`, construct the new element at cell `pos`,
transfer `[old_start, position)` to cells starting at `0`, bump `new_finish`
past the new element, transfer `[position, old_finish)` to cells starting at
`pos + 1`; on any failure destroy `[new_start, new_finish)`, release the new
block and propagate. -/
def M_realloc_insert (maxSize : Nat) (v : VecState α) (pos : Nat)
    (mkNew : Except Err α) (tr : Nat → α → Except Err α) :
    EmplaceOutcome α :=
  match M_check_len maxSize v.data.length 1 with
  | .error e =>
    -- length_error thrown before any allocation
    ⟨.error e, [], false, none⟩
  | .ok len =>
    -- new_start = M_allocate(len); new_finish = new_start
    match mkNew with
    | .error e =>
      -- construct at new_start + elems_before threw; catch destroys
      -- [new_start, new_finish) = nothing, releases the new block
      ⟨.error e, [], true, some len⟩
    | .ok x =>
      -- cell `pos` now holds the new element
      match uninitTransfer tr 0 (v.data.take pos) with
      | .error e =>
        -- the transfer destroyed its own partial range; new_finish is still
        -- new_start, so the catch destroys nothing: cell `pos` stays
        -- constructed when the new block is released
        ⟨.error e, [pos], true, some len⟩
      | .ok front =>
        -- new_finish = new_start + pos; ++new_finish
        match uninitTransfer tr pos (v.data.drop pos) with
        | .error e =>
          -- catch destroys [new_start, new_start + pos + 1): the
          -- transferred prefix and the new element
          ⟨.error e, [], true, some len⟩
        | .ok back_ =>
          -- destroy the old range, release the old block, adopt cursors
          ⟨.ok ⟨front ++ x :: back_, len⟩, [], false, some len⟩

/-- `Vector::emplace_back(args...)` (vector.hpp:412-426): construct in place
when `M_finish != M_end_of_shorage`, otherwise `M_realloc_insert(end(), ...)`.
-/
def emplaceBack (maxSize : Nat) (v : VecState α) (mkNew : Except Err α)
    (tr : Nat → α → Except Err α) : EmplaceOutcome α :=
  if v.data.length ≠ v.cap then
    match mkNew with
    | .error e => ⟨.error e, [], false, none⟩
    | .ok x => ⟨.ok ⟨v.data ++ [x], v.cap⟩, [], false, none⟩
  else
    M_realloc_insert maxSize v v.data.length mkNew tr

/-! ## `fillAssign` (claim C9) -/

/-- `Vector::M_fill_assign(n, val)` (vector.hpp:588-606).  Case 1 builds
`Vector tmp(n, val)` (which re-checks the length) and swaps it in; case 2
refills the live prefix and `uninitialized_fill_n`s the raw tail; case 3
`fill_n`s the first `n` cells and erases the tail. -/
def M_fill_assign (maxSize n : Nat) (val : α) (v : VecState α) :
    Except Err (VecState α) :=
  if n > v.cap then
    (vectorCreateFill maxSize n val).map fun tmp => tmp
  else if n > v.data.length then
    .ok ⟨List.replicate v.data.length val
          ++ List.replicate (n - v.data.length) val, v.cap⟩
  else
    .ok (M_erase_at_end ⟨listCopyInto (List.replicate n val) v.data, v.cap⟩ n)

/-! ## Slab pool allocator (`poolmemory.hpp`, claims C5/C7)

Addresses are byte addresses (`Nat`).  Each `Block` header lives at a fixed
address inside its page; the intrusive free-list links are modelled as an
association list from block-header address to the header's three fields. -/

structure BlockSt where
  free : Bool
  nextFree : Option Nat
  prevFree : Option Nat
  deriving DecidableEq, Repr

/-- Intrusive block headers, indexed by their byte address. -/
abbrev BlockMap : Type := List (Nat × BlockSt)

/-- Read a block header (reading an address no page owns yields junk, as the
source would). -/
def bmGet (m : BlockMap) (a : Nat) : BlockSt :=
  match m with
  | [] => ⟨false, none, none⟩
  | (k, b) :: rest => if k = a then b else bmGet rest a

/-- Store through a block-header pointer.  A store to an address no page owns
goes to memory outside the model, so it is dropped. -/
def bmUpd (m : BlockMap) (a : Nat) (f : BlockSt → BlockSt) : BlockMap :=
  match m with
  | [] => []
  | (k, b) :: rest => if k = a then (k, f b) :: rest else (k, b) :: bmUpd rest a f

/-- The compile-time layout constants of `PoolMemory<T>`
(poolmemory.hpp:336-348), plus `sizeof(Block)` which the deallocation scan's
`Block*` pointer arithmetic multiplies by. -/
structure PoolCfg where
  sizeofBlock : Nat
  blockInfoSize : Nat
  blockSize : Nat
  pageInfoSize : Nat
  numEle : Nat
  deriving DecidableEq, Repr

/-- `PoolMemory::page_size = page_info_size + block_size * num_ele`
(poolmemory.hpp:234-236). -/
def PoolCfg.pageSize (c : PoolCfg) : Nat := c.pageInfoSize + c.blockSize * c.numEle

/-- The layout constants for `PoolMemory<int>` on LP64:
`sizeof(Block) = 24` (`bool` + two pointers), `alignof(int) = 4 < 16` so
`block_info_size = sizeof(Block) = 24`, `block_size = 24 + 8 = 32`,
`page_info_size = 16`, `num_ele = 1024`. -/
def intCfg : PoolCfg := ⟨24, 24, 32, 16, 1024⟩

structure PageSt where
  base : Nat
  firstFree : Option Nat
  deriving DecidableEq, Repr

structure PoolSt where
  pages : List PageSt
  blocks : BlockMap
  deriving DecidableEq

/-- `PoolMemory::PoolMemory()` (poolmemory.hpp:58): `first_page = nullptr`. -/
def freshPool : PoolSt := ⟨[], []⟩

/-- The block headers written by `PoolMemory::AllocNewPage`
(poolmemory.hpp:271-301): block `i` sits at
`base + page_info_size + i * block_size`, is free, links forward to block
`i+1` unless it is the last and backward to block `i-1` unless it is the
first. -/
def allocNewPageBlocks (c : PoolCfg) (base : Nat) : BlockMap :=
  (List.range c.numEle).map fun i =>
    (base + c.pageInfoSize + i * c.blockSize,
     ⟨true,
      if i ≠ c.numEle - 1
        then some (base + c.pageInfoSize + i * c.blockSize + c.blockSize)
        else none,
      if i ≠ 0
        then some (base + c.pageInfoSize + i * c.blockSize - c.blockSize)
        else none⟩)

/-- `PoolMemory::AllocNewPage` (poolmemory.hpp:261-305): a page allocated at
`base` whose `first_free_block` is its first block, with all blocks pre-linked
into one ascending free list. -/
def allocNewPage (c : PoolCfg) (base : Nat) : PageSt × BlockMap :=
  (⟨base, some (base + c.pageInfoSize)⟩, allocNewPageBlocks c base)

/-- `PoolMemory::allocate()` (poolmemory.hpp:87-121).  `FindFreePage` scans
pages in creation order for one with a non-null free-list head
(poolmemory.hpp:323-333); if none exists a new page is created at the fresh
address `newBase` and appended (`get_last_page` + link).  The head block is
popped: marked in-use, detached, and the address just past its header is
returned. -/
def pm_allocate (c : PoolCfg) (st : PoolSt) (newBase : Nat) : PoolSt × Nat :=
  let found :=
    match st.pages.findIdx? (fun p => p.firstFree.isSome) with
    | some i => (st.pages, st.blocks, i)
    | none =>
      let pg := allocNewPage c newBase
      (st.pages ++ [pg.1], st.blocks ++ pg.2, st.pages.length)
  match found with
  | (pages, blocks, pidx) =>
    let page := pages.getD pidx ⟨0, none⟩
    match page.firstFree with
    | none => (⟨pages, blocks⟩, 0)
    | some fb =>
      let b := bmGet blocks fb
      let blocks1 := bmUpd blocks fb fun x => { x with free := false }
      let blocks2 :=
        match b.nextFree with
        | some nb => bmUpd blocks1 nb fun x => { x with prevFree := none }
        | none => blocks1
      let pages1 := pages.set pidx { page with firstFree := b.nextFree }
      let blocks3 := bmUpd blocks2 fb fun x =>
        { x with nextFree := none, prevFree := none }
      (⟨pages1, blocks3⟩, fb + c.blockInfoSize)

/-- The neighbor-search loop of `PoolMemory::deallocate(void*)`
(poolmemory.hpp:177-187):
`while (adjacent < block and adjacent->next_free_block != nullptr)`, with an
early break when `adjacent < block and block < adjacent + block_size` — the
latter comparison is `Block*` pointer arithmetic, i.e. an offset of
`block_size * sizeof(Block)` bytes. -/
def scanAdjacent (c : PoolCfg) (blocks : BlockMap) :
    Nat → Nat → Nat → Nat
  | 0, adjacent, _ => adjacent
  | fuel + 1, adjacent, blockAddr =>
    if adjacent < blockAddr ∧ (bmGet blocks adjacent).nextFree ≠ none then
      if adjacent < blockAddr ∧
          blockAddr < adjacent + c.blockSize * c.sizeofBlock then
        adjacent
      else
        match (bmGet blocks adjacent).nextFree with
        | some nxt => scanAdjacent c blocks fuel nxt blockAddr
        | none => adjacent
    else adjacent

/-- `PoolMemory::deallocate(void*)` (poolmemory.hpp:142-209).  The header is
recovered at `p - block_info_size` and marked free; the owning page is found
by strict address-range containment (`page < block < page + page_size`),
failing with `std::invalid_argument` when no page contains it; the block is
then spliced next to the neighbor located by `scanAdjacent` — after it when
the neighbor's address is lower, otherwise before it (in which case the
source leaves `page->first_free_block` untouched). -/
def pm_deallocate (c : PoolCfg) (st : PoolSt) (p : Nat) : Except Err PoolSt :=
  let blockAddr := p - c.blockInfoSize
  let blocks := bmUpd st.blocks blockAddr fun x => { x with free := true }
  match st.pages.findIdx?
      (fun pg => decide (pg.base < blockAddr ∧ blockAddr < pg.base + c.pageSize)) with
  | none => .error .invalidArgument
  | some pidx =>
    let page := st.pages.getD pidx ⟨0, none⟩
    match page.firstFree with
    | none =>
      let blocks1 := bmUpd blocks blockAddr fun x =>
        { x with prevFree := none, nextFree := none }
      .ok ⟨st.pages.set pidx { page with firstFree := some blockAddr }, blocks1⟩
    | some head =>
      let adjacent := scanAdjacent c blocks (blocks.length + 1) head blockAddr
      if adjacent < blockAddr then
        let adjNext := (bmGet blocks adjacent).nextFree
        let blocks1 := bmUpd blocks blockAddr fun x =>
          { x with prevFree := some adjacent, nextFree := adjNext }
        let blocks2 := bmUpd blocks1 adjacent fun x =>
          { x with nextFree := some blockAddr }
        let blocks3 :=
          match adjNext with
          | some nb => bmUpd blocks2 nb fun x => { x with prevFree := some blockAddr }
          | none => blocks2
        .ok ⟨st.pages, blocks3⟩
      else
        let adjPrev := (bmGet blocks adjacent).prevFree
        let blocks1 := bmUpd blocks blockAddr fun x =>
          { x with nextFree := some adjacent, prevFree := adjPrev }
        let blocks2 := bmUpd blocks1 adjacent fun x =>
          { x with prevFree := some blockAddr }
        let blocks3 :=
          match adjPrev with
          | some pb => bmUpd blocks2 pb fun x => { x with nextFree := some blockAddr }
          | none => blocks2
        .ok ⟨st.pages, blocks3⟩

/-- `PoolMemory::allocate(size_type)` (poolmemory.hpp:74-82): a count above
one throws `std::out_of_range`, otherwise the single-block `allocate()`
runs. -/
def pm_allocate_n (c : PoolCfg) (st : PoolSt) (newBase n : Nat) :
    Except Err (PoolSt × Nat) :=
  if n > 1 then .error .outOfRange else .ok (pm_allocate c st newBase)

/-- `PoolMemory::deallocate(void*, size_type)` (poolmemory.hpp:130-137): a
count above one throws `std::out_of_range`, otherwise `deallocate(p)` runs. -/
def pm_deallocate_n (c : PoolCfg) (st : PoolSt) (p n : Nat) :
    Except Err PoolSt :=
  if n > 1 then .error .outOfRange else pm_deallocate c st p

/-- The block addresses reachable from a free-list head by following
`next_free_block`, with enough fuel to cover every block of a page. -/
def fwdChain (blocks : BlockMap) : Nat → Option Nat → List Nat
  | 0, _ => []
  | _, none => []
  | fuel + 1, some a => a :: fwdChain blocks fuel (bmGet blocks a).nextFree

/-! ## Bump pool allocator (`my-poolmemory.hpp`, claim C6)

The second pool variant.  A `MemoryPage` header (32 bytes on LP64: four
pointers) is followed by storage for `page_size = 1000` elements.  All
addresses are byte addresses; the element type is `int` (`sizeof = 4`). -/

structure BumpPage where
  base : Nat
  pbegin : Nat
  pend : Nat
  curr : Nat
  deriving DecidableEq, Repr

structure BumpSt where
  pages : List BumpPage
  deriving DecidableEq, Repr

/-- `PoolMemory<T>::PoolMemory()` (my-poolmemory.hpp:96-111) for a page
allocated at byte address `b1`:  `begin->begin` is
`reinterpret_cast<value_type*>(begin + 0)`, i.e. the page header address
itself, and `begin->end` is `reinterpret_cast<value_type*>(begin + 0 +
page_size)` — `MemoryPage*` arithmetic, so `b1 + 1000 * sizeof(MemoryPage)`.
`curr_block` starts at `begin->begin`. -/
def bumpFresh (b1 : Nat) : BumpSt := ⟨[⟨b1, b1, b1 + 1000 * 32, b1⟩]⟩

/-- `PoolMemory<T>::allocate(size_type)` (my-poolmemory.hpp:113-144) for
`T = int`.  A request above `page_size = 1000` throws `std::bad_alloc`.  When
`end->end - end->curr_block` (a `value_type*` difference, so bytes divided by
`sizeof(int) = 4`) cannot cover `n`, a new page is allocated at `newBase` and
appended — but its `begin`/`end`/`curr_block` fields are computed from the
member `begin` (the FIRST page), exactly as the source does.  The current
block address is returned and the cursor bumped by `n` elements. -/
def bumpAllocate (st : BumpSt) (newBase n : Nat) :
    Except Err (BumpSt × Nat) :=
  if n > 1000 then .error .outOfMemory
  else
    let firstBase := (st.pages.headD ⟨0, 0, 0, 0⟩).base
    let lp0 := st.pages.getLastD ⟨0, 0, 0, 0⟩
    let grown :=
      if (lp0.pend - lp0.curr) / 4 < n then
        let temp : BumpPage := ⟨newBase, firstBase, firstBase + 1000 * 32, firstBase⟩
        (st.pages ++ [temp], temp)
      else (st.pages, lp0)
    match grown with
    | (pages, lp) =>
      let res := lp.curr
      .ok (⟨pages.dropLast ++ [{ lp with curr := lp.curr + n * 4 }]⟩, res)

/-- `k` consecutive `allocate(n)` calls, with every newly created page placed
at address `b2`; returns the final pool state and the address returned by the
last call. -/
def bumpRun (b2 n : Nat) : Nat → BumpSt × Nat → BumpSt × Nat
  | 0, s => s
  | k + 1, s =>
    match bumpAllocate s.1 b2 n with
    | .ok s' => bumpRun b2 n k s'
    | .error _ => (s.1, 0)

/-! ## Buffer lifecycle instrumentation (claim C10) -/

/-- `VectorBase::M_deallocate(p, n)` (vectorbase.hpp:115-119) instrumented
with the number of calls it makes to the allocator's `deallocate`: one when
`p != nullptr`, zero otherwise. -/
def M_deallocate_calls (p : Option Nat) (n : Nat) : Nat :=
  match p, n with
  | none, _ => 0
  | some _, _ => 1

/-- `Vector::begin()` (vector.hpp:236-238): the `M_start` cursor. -/
def beginB (v : VecB α) : Option Nat := v.start

/-- `Vector::end()` (vector.hpp:253-255): the `M_finish` cursor,
`M_start + size()` in slot units (null when `M_start` is null). -/
def endB (v : VecB α) : Option Nat := v.start.map (· + v.data.length)

/-- `Vector::clear()` (vector.hpp:389), i.e. `M_erase_at_end(M_start)`:
destroys the live elements and resets `M_finish`; the storage is untouched. -/
def clearB (v : VecB α) : VecB α := ⟨v.start, [], v.cap⟩

/-- Allocator `deallocate` calls made by `~Vector` (vector.hpp:138-140, which
only destroys elements) followed by `~VectorBase` (vectorbase.hpp:80-82,
which runs `M_deallocate(M_start, M_end_of_shorage - M_start)`). -/
def destructorDeallocCalls (v : VecB α) : Nat :=
  M_deallocate_calls v.start v.cap

/-! # Theorems for the claims -/

/-- Helper: `M_check_len` with `n = 1` under the realistic bounds
`size < max_size ≤ PTRDIFF_MAX` computes `size + max(size, 1)`, saturating to
`max_size` when that exceeds it (the `size_t` wrap tests cannot fire). -/
theorem check_len_one (maxSize s : Nat) (h1 : s < maxSize)
    (h2 : maxSize ≤ 2 ^ 63 - 1) :
    M_check_len maxSize s 1 =
      .ok (if maxSize < s + max s 1 then maxSize else s + max s 1) := by
  have hmax1 : max s 1 ≤ 2 ^ 63 - 1 := max_le (by omega) (by norm_num)
  have hmax2 : 1 ≤ max s 1 := le_max_right s 1
  unfold M_check_len wsub wadd W64
  have e1 : (maxSize + 2 ^ 64 - s) % 2 ^ 64 = maxSize - s := by
    rw [show maxSize + 2 ^ 64 - s = (maxSize - s) + 2 ^ 64 by omega,
      Nat.add_mod_right]
    exact Nat.mod_eq_of_lt (by omega)
  have e2 : (s + max s 1) % 2 ^ 64 = s + max s 1 :=
    Nat.mod_eq_of_lt (by omega)
  rw [e1, e2, if_neg (by omega)]
  have e3 : (s + max s 1 < s ∨ s + max s 1 > maxSize) ↔
      maxSize < s + max s 1 := by omega
  simp only [e3]

/-- Helper: whatever the constructor and the transfers do,
`M_realloc_insert` allocates exactly the block size `M_check_len` returns. -/
theorem realloc_insert_allocLen (maxSize : Nat) (v : VecState α) (pos : Nat)
    (mkNew : Except Err α) (tr : Nat → α → Except Err α) (L : Nat)
    (hcl : M_check_len maxSize v.data.length 1 = .ok L) :
    (M_realloc_insert maxSize v pos mkNew tr).allocLen = some L := by
  unfold M_realloc_insert
  rw [hcl]
  cases mkNew with
  | error e => rfl
  | ok x =>
    cases h1 : uninitTransfer tr 0 (v.data.take pos) with
    | error e => rfl
    | ok front =>
      cases h2 : uninitTransfer tr pos (v.data.drop pos) with
      | error e => rfl
      | ok back_ => rfl

/-- C4: on a full vector (`finish == capacityEnd`) whose size is below
`max_size()`, an appending `emplace_back` reallocates, and the block it
allocates has capacity `size + max(size, 1)`, saturating to `max_size()`
when that sum exceeds it. -/
theorem emplace_back_growth_capacity (maxSize : Nat) (v : VecState α)
    (mkNew : Except Err α) (tr : Nat → α → Except Err α)
    (hfull : v.data.length = v.cap) (hlt : v.size < maxSize)
    (hM : maxSize ≤ 2 ^ 63 - 1) :
    (emplaceBack maxSize v mkNew tr).allocLen =
      some (if maxSize < v.size + max v.size 1 then maxSize
            else v.size + max v.size 1) ∧
    M_check_len maxSize v.size 1 =
      .ok (if maxSize < v.size + max v.size 1 then maxSize
           else v.size + max v.size 1) := by
  have hcl := check_len_one maxSize v.size hlt hM
  refine ⟨?_, hcl⟩
  unfold emplaceBack
  rw [if_neg (by simp [VecState.size] at hfull ⊢; omega)]
  exact realloc_insert_allocLen maxSize v v.data.length mkNew tr _ hcl

/-- Witness for `emplace_back_growth_capacity` at a concrete full vector of
size 1 with `max_size = 100`: the reallocated block has capacity 2. -/
theorem emplace_back_growth_capacity_witness :
    (emplaceBack 100 (⟨[3], 1⟩ : VecState Nat) (.ok 5)
        (fun _ x => .ok x)).allocLen = some 2 ∧
    M_check_len 100 1 1 = .ok 2 := by
  have h := emplace_back_growth_capacity 100 (⟨[3], 1⟩ : VecState Nat)
    (.ok 5) (fun _ x => .ok x) (by decide) (by decide) (by norm_num)
  simpa [VecState.size] using h

/-- C1: evaluation of the code at the failing input.  On a vector holding
`[37]` with capacity 1, a reallocating `emplace_back` whose new element
constructs fine but whose element transfer fails propagates the failure with
the vector untouched and the new block released — but cell 1 of the new
block, holding the already-constructed new element, is NOT destroyed
(`new_finish` still equals `new_start` when the first `move_or_copy` throws,
so the catch block's `std::destroy(new_start, new_finish)` destroys nothing),
contradicting the claim that the operation destroys whatever it already
constructed in the new storage. -/
theorem realloc_insert_leaks_new_element :
    M_realloc_insert 100 (⟨[37], 1⟩ : VecState Nat) 1 (.ok 5)
        (fun _ _ => .error .runtimeError) =
      ⟨.error .runtimeError, [1], true, some 2⟩ ∧
    ([1] : List Nat) ≠ [] :=
  ⟨rfl, by decide⟩

/-- C2: evaluation of the code at the failing input.  With
`a = [1]` (capacity 2) and `b = [5, 7]`, so that
`a.size() < b.size() <= a.capacity()`, copy assignment lands in case 3, whose
prefix copy is `std::copy(this->M_start, this->M_start + this->size(),
this->M_start)` — it copies `a`'s own prefix onto itself instead of copying
from `b` — so the result is `[1, 7]`, not `b`'s elements `[5, 7]`. -/
theorem copy_assign_case3_keeps_old_prefix :
    copyAssign (⟨[1], 2⟩ : VecState Nat) ⟨[5, 7], 2⟩ = ⟨[1, 7], 2⟩ ∧
    (copyAssign (⟨[1], 2⟩ : VecState Nat) ⟨[5, 7], 2⟩).data ≠ [5, 7] :=
  ⟨rfl, by decide⟩

/-- C3 counterexample: move assignment does not leave the source empty and
storage-less.  `operator=(Vector&&)` is `M_swap_data(other)`, so after
`a = std::move(b)` the source `b` holds `a`'s former buffer — here a
non-empty buffer at address 100. -/
theorem move_assign_source_not_empty :
    (moveAssign (⟨some 100, [5, 7], 2⟩ : VecB Nat) ⟨some 200, [9], 1⟩).2 =
      ⟨some 100, [5, 7], 2⟩ ∧
    ((moveAssign (⟨some 100, [5, 7], 2⟩ : VecB Nat) ⟨some 200, [9], 1⟩).2 ≠
      defaultVecB Nat) := by
  refine ⟨rfl, by decide⟩

/-- C3 amended: move CONSTRUCTION transfers ownership — with always-equal
allocators the cursors are taken over and the source is left empty and
storage-less; with non-always-equal allocators each element is moved into
freshly acquired storage of capacity `rv.size()` and the source is cleared
(elements destroyed, its own storage retained).  Move ASSIGNMENT, however,
swaps the two buffers, leaving the source holding the destination's former
buffer rather than an empty one. -/
theorem move_semantics_amended (a : Nat) (dst src rv : VecB α) :
    moveAssign dst src = (src, dst) ∧
    moveCtorAlwaysEq rv = (rv, defaultVecB α) ∧
    (rv.data ≠ [] →
      moveCtorNotAlwaysEq a rv =
        (⟨some a, rv.data, rv.data.length⟩, ⟨rv.start, [], rv.cap⟩)) ∧
    (rv.data = [] → moveCtorNotAlwaysEq a rv = (defaultVecB α, rv)) := by
  refine ⟨rfl, rfl, fun h => ?_, fun h => ?_⟩
  · unfold moveCtorNotAlwaysEq
    rw [if_neg (by simpa [List.isEmpty_iff] using h)]
  · unfold moveCtorNotAlwaysEq
    rw [if_pos (by simpa [List.isEmpty_iff] using h)]

/-- Witness for `move_semantics_amended`: the non-always-equal move
construction from `⟨storage 3, [4, 5], cap 2⟩` into fresh storage at address
50 yields a vector of capacity 2 holding `[4, 5]` and leaves the source
cleared but still owning its storage. -/
theorem move_semantics_amended_witness :
    moveCtorNotAlwaysEq 50 (⟨some 3, [4, 5], 2⟩ : VecB Nat) =
      (⟨some 50, [4, 5], 2⟩, ⟨some 3, [], 2⟩) :=
  (move_semantics_amended 50 (defaultVecB Nat) (defaultVecB Nat)
    (⟨some 3, [4, 5], 2⟩ : VecB Nat)).2.2.1 (by decide)

/-- C8: constructing a `Vector` with count `n` (default-valued via
`Vector(n)`, or filled via `Vector(n, value)`) fails with `LengthError`
exactly when `n` exceeds `min(maxAddressableCount, strategyMaxCount)` =
`S_max_size()`; otherwise it yields a vector of size `n` (and capacity `n`)
whose elements all equal the default-constructed value, resp. the supplied
value. -/
theorem vector_create_length_check (diffmax allocmax n : Nat) (d v : α) :
    (vectorCreateDefault (S_max_size diffmax allocmax) n d =
      if n > min diffmax allocmax then .error .lengthError
      else .ok ⟨List.replicate n d, n⟩) ∧
    (vectorCreateFill (S_max_size diffmax allocmax) n v =
      if n > min diffmax allocmax then .error .lengthError
      else .ok ⟨List.replicate n v, n⟩) := by
  by_cases hn : n > min diffmax allocmax
  · constructor <;>
      simp [vectorCreateDefault, vectorCreateFill, S_check_init_len,
        S_max_size, Except.map, hn]
  · constructor <;>
      simp [vectorCreateDefault, vectorCreateFill, S_check_init_len,
        S_max_size, M_default_initialize, M_fill_initialize,
        M_create_storage, Except.map, hn]

/-- Helper for C9: a vector already holding `n` copies of `val` inside a
capacity of at least `n` is a fixed point of `M_fill_assign(n, val)`. -/
theorem fill_assign_fixed_point (maxSize n : Nat) (val : α) (c : Nat)
    (hc : n ≤ c) :
    M_fill_assign maxSize n val ⟨List.replicate n val, c⟩ =
      .ok ⟨List.replicate n val, c⟩ := by
  unfold M_fill_assign
  rw [if_neg (by simpa using hc)]
  rw [if_neg (by simp)]
  unfold listCopyInto M_erase_at_end
  simp

/-- C9: for every vector, every count `n` within the representable maximum
and every value `val`, `assign(n, val)` (i.e. `M_fill_assign`) succeeds and
leaves the vector with exactly `n` copies of `val`; calling it again
immediately returns the very same state. -/
theorem fill_assign_idempotent (maxSize n : Nat) (val : α) (s : VecState α)
    (h : n ≤ maxSize) :
    ∃ s' : VecState α, M_fill_assign maxSize n val s = .ok s' ∧
      s'.data = List.replicate n val ∧ s'.size = n ∧
      M_fill_assign maxSize n val s' = .ok s' := by
  have key : ∃ c, n ≤ c ∧
      M_fill_assign maxSize n val s = .ok ⟨List.replicate n val, c⟩ := by
    unfold M_fill_assign
    by_cases h1 : n > s.cap
    · refine ⟨n, le_rfl, ?_⟩
      rw [if_pos h1]
      unfold vectorCreateFill S_check_init_len M_fill_initialize
        M_create_storage
      rw [if_neg (by omega)]
      rfl
    · rw [if_neg h1]
      by_cases h2 : n > s.data.length
      · refine ⟨s.cap, by omega, ?_⟩
        rw [if_pos h2]
        rw [← List.replicate_add]
        congr 3
        omega
      · refine ⟨s.cap, by omega, ?_⟩
        rw [if_neg h2]
        unfold listCopyInto M_erase_at_end
        by_cases h3 : n < s.data.length
        · have hlen :
              (List.replicate n val ++ s.data.drop n).length > n := by
            simp
            omega
          rw [if_pos (by simpa using hlen)]
          rw [List.take_left' (by simp)]
        · have hd : s.data.drop n = [] := by
            rw [List.drop_eq_nil_iff]
            omega
          rw [if_neg (by simp [hd])]
          simp [hd]
  obtain ⟨c, hc, heq⟩ := key
  exact ⟨⟨List.replicate n val, c⟩, heq, rfl, by simp [VecState.size],
    fill_assign_fixed_point maxSize n val c hc⟩

/-- Witness for `fill_assign_idempotent`: `assign(2, 7)` on the vector
`⟨[1], capacity 1⟩` with `max_size = 10`. -/
theorem fill_assign_idempotent_witness :
    (2 ≤ 10) ∧ ∃ s' : VecState Nat,
      M_fill_assign 10 2 7 ⟨[1], 1⟩ = .ok s' ∧
      s'.data = List.replicate 2 7 ∧ s'.size = 2 ∧
      M_fill_assign 10 2 7 s' = .ok s' :=
  ⟨by decide, fill_assign_idempotent 10 2 7 ⟨[1], 1⟩ (by decide)⟩

/-- C10: a default-constructed `Vector` has size 0, capacity 0 and
`begin() == end()` (all cursors null); destroying it — and destroying it
after `clear()` — performs zero calls to the allocator's `deallocate`,
because `M_deallocate` only forwards to the allocator when the storage
pointer is non-null. -/
theorem default_vector_empty_no_dealloc (α : Type) :
    (defaultVecB α).data.length = 0 ∧
    (defaultVecB α).cap = 0 ∧
    beginB (defaultVecB α) = endB (defaultVecB α) ∧
    destructorDeallocCalls (defaultVecB α) = 0 ∧
    destructorDeallocCalls (clearB (defaultVecB α)) = 0 ∧
    (∀ n : Nat, M_deallocate_calls none n = 0) ∧
    (∀ a n : Nat, M_deallocate_calls (some a) n = 1) := by
  refine ⟨rfl, rfl, rfl, rfl, rfl, fun n => rfl, fun a n => rfl⟩

/-- The pool state after `p = allocate()` on a fresh `PoolMemory<int>` whose
single page is created at byte address 1000: the allocate builds the page
(blocks at 1016, 1048, ..., 33752), pops block 1016 and returns its storage
address 1040; the free-list head becomes block 1048. -/
def c5AllocState : PoolSt × Nat := pm_allocate intCfg freshPool 1000

/-- The state after the subsequent `deallocate(p)`: block 1016 is marked free
and spliced in front of block 1048, but `page->first_free_block` stays
1048. -/
def c5FinalState : PoolSt :=
  match pm_deallocate intCfg c5AllocState.1 c5AllocState.2 with
  | .ok st => st
  | .error _ => c5AllocState.1

set_option maxRecDepth 100000

set_option maxHeartbeats 4000000

/-- The block map of `c5FinalState`, written out as the store sequence the
trace performs on the fresh page's map: the allocate pops block 1016
(mark in-use, clear 1048's back link, detach 1016), the deallocate marks 1016
free and splices it before the head 1048. -/
def c5Blocks : BlockMap :=
  bmUpd (bmUpd (bmUpd (bmUpd (bmUpd (bmUpd (allocNewPageBlocks intCfg 1000)
    1016 (fun x => { x with free := false }))
    1048 (fun x => { x with prevFree := none }))
    1016 (fun x => { x with nextFree := none, prevFree := none }))
    1016 (fun x => { x with free := true }))
    1016 (fun x => { x with nextFree := some 1048, prevFree := none }))
    1048 (fun x => { x with prevFree := some 1016 })

/-- Reading through an updated block map: either the address misses the
updated key and reads the old map, or it is the key and reads the rewritten
header. -/
theorem bmGet_bmUpd_cases (m : BlockMap) (k : Nat) (f : BlockSt → BlockSt)
    (a : Nat) :
    bmGet (bmUpd m k f) a = bmGet m a ∨
    (a = k ∧ bmGet (bmUpd m k f) a = f (bmGet m k)) := by
  induction m with
  | nil => left; rfl
  | cons hd tl ih =>
    obtain ⟨kh, bh⟩ := hd
    by_cases h1 : kh = k
    · subst h1
      by_cases h2 : a = kh
      · subst h2
        right
        exact ⟨rfl, by simp [bmUpd, bmGet]⟩
      · left
        simp [bmUpd, bmGet, Ne.symm h2]
    · by_cases h2 : kh = a
      · subst h2
        left
        simp [bmUpd, bmGet, h1]
      · rcases ih with ih1 | ⟨rfl, ih2⟩
        · left
          simpa [bmUpd, bmGet, h1, h2] using ih1
        · right
          refine ⟨rfl, ?_⟩
          simpa [bmUpd, bmGet, h1, h2] using ih2

/-- A pointwise property that holds for the null header and for every entry
of a block map holds for every read. -/
theorem bmGet_entries (m : BlockMap) (P : Nat → BlockSt → Prop)
    (hnull : ∀ a, P a ⟨false, none, none⟩)
    (hent : ∀ q ∈ m, P q.1 q.2) (a : Nat) : P a (bmGet m a) := by
  induction m with
  | nil => exact hnull a
  | cons hd tl ih =>
    obtain ⟨kh, bh⟩ := hd
    by_cases h : kh = a
    · subst h
      simpa [bmGet] using hent (kh, bh) (List.mem_cons_self _ _)
    · simpa [bmGet, h] using ih fun q hq => hent q (List.mem_cons_of_mem _ hq)

/-- In a freshly built page every forward free-list link points at a strictly
higher address. -/
theorem allocNewPageBlocks_next_increasing (c : PoolCfg) (b0 : Nat)
    (hbs : 0 < c.blockSize) (a b : Nat)
    (h : (bmGet (allocNewPageBlocks c b0) a).nextFree = some b) : a < b := by
  revert h
  refine bmGet_entries (allocNewPageBlocks c b0)
    (fun a st => st.nextFree = some b → a < b) (fun _ h => by cases h)
    ?_ a
  intro q hq
  simp only [allocNewPageBlocks, List.mem_map, List.mem_range] at hq
  obtain ⟨i, hi, rfl⟩ := hq
  intro hnext
  by_cases hlast : i ≠ c.numEle - 1
  · rw [if_pos hlast] at hnext
    have hb : b0 + c.pageInfoSize + i * c.blockSize + c.blockSize = b :=
      Option.some.inj hnext
    omega
  · rw [if_neg hlast] at hnext
    cases hnext

/-- Updating one header preserves "every forward link increases the address",
provided the rewritten header's own forward link does. -/
theorem bmUpd_next_increasing (m : BlockMap) (k : Nat) (f : BlockSt → BlockSt)
    (hm : ∀ a b, (bmGet m a).nextFree = some b → a < b)
    (hf : ∀ b, (f (bmGet m k)).nextFree = some b → k < b)
    (a b : Nat) (h : (bmGet (bmUpd m k f) a).nextFree = some b) : a < b := by
  rcases bmGet_bmUpd_cases m k f a with hc | ⟨rfl, hc⟩
  · exact hm a b (hc ▸ h)
  · exact hf b (hc ▸ h)

/-- When every forward link strictly increases the address, every block
reached from a head by following `next_free_block` sits at or above the
head's address. -/
theorem fwdChain_lower_bound (blocks : BlockMap)
    (hm : ∀ a b, (bmGet blocks a).nextFree = some b → a < b) :
    ∀ fuel h x, x ∈ fwdChain blocks fuel (some h) → h ≤ x := by
  intro fuel
  induction fuel with
  | zero => intro h x hx; simp [fwdChain] at hx
  | succ n ih =>
    intro h x hx
    simp only [fwdChain] at hx
    rcases List.mem_cons.mp hx with rfl | hx'
    · exact le_rfl
    · cases hnext : (bmGet blocks h).nextFree with
      | none =>
        rw [hnext] at hx'
        cases n <;> simp [fwdChain] at hx'
      | some b =>
        rw [hnext] at hx'
        exact le_trans (le_of_lt (hm h b hnext)) (ih b x hx')

/-- Every forward link of the traced final block map increases the address:
the untouched fresh-page links go to the successor block, the respliced block
1016 links forward to 1048, and the other rewritten headers keep their
forward link. -/
theorem c5Blocks_next_increasing (a b : Nat)
    (h : (bmGet c5Blocks a).nextFree = some b) : a < b := by
  have h0 := allocNewPageBlocks_next_increasing intCfg 1000 (by decide)
  have h1 := bmUpd_next_increasing (allocNewPageBlocks intCfg 1000)
    1016 (fun x => { x with free := false }) h0
    (fun b hb => h0 1016 b hb)
  have h2 := bmUpd_next_increasing _
    1048 (fun x => { x with prevFree := none }) h1
    (fun b hb => h1 1048 b hb)
  have h3 := bmUpd_next_increasing _
    1016 (fun x => { x with nextFree := none, prevFree := none }) h2
    (fun b hb => nomatch hb)
  have h4 := bmUpd_next_increasing _
    1016 (fun x => { x with free := true }) h3
    (fun b hb => h3 1016 b hb)
  have h5 := bmUpd_next_increasing _
    1016 (fun x => { x with nextFree := some 1048, prevFree := none }) h4
    (fun b hb => by cases hb; decide)
  have h6 := bmUpd_next_increasing _
    1048 (fun x => { x with prevFree := some 1016 }) h5
    (fun b hb => h5 1048 b hb)
  exact h6 a b h

/-- C5: evaluation of the code at the failing input.  On a fresh
`PoolMemory<int>` page at address 1000, after `p = allocate();
deallocate(p)`: the released block 1016 is free and doubly linked in front of
the head block 1048 (`1048.prev = 1016`), yet the page's free-list head still
points at 1048, so following `next_free_block` from the head never reaches
the free block 1016 — the deallocation spliced before the head without
updating `first_free_block`, contradicting the claim that the list head
always reaches every free block of the page. -/
theorem pool_deallocate_head_unreachable :
    (bmGet c5FinalState.blocks 1016).free = true ∧
    (bmGet c5FinalState.blocks 1048).prevFree = some 1016 ∧
    c5FinalState.pages.map PageSt.firstFree = [some 1048] ∧
    1016 ∉ fwdChain c5FinalState.blocks 1025 (some 1048) := by
  have hE : c5FinalState.blocks = c5Blocks := by decide
  refine ⟨?_, ?_, by decide, ?_⟩
  · rw [hE]; decide
  · rw [hE]; decide
  · rw [hE]
    intro hmem
    have := fwdChain_lower_bound c5Blocks c5Blocks_next_increasing
      1025 1048 1016 hmem
    omega

/-- C6: evaluation of the code at the failing input.  On a fresh bump-pool
`PoolMemory<int>` (my-poolmemory.hpp) whose first page header sits at address
100000, nine consecutive `allocate(1000)` calls with no deallocation: the
ninth call is the one that runs past the page's range and creates exactly one
new page (page count goes 1 → 2), but because the new page's
`begin`/`curr_block` are computed from the member `begin` — the FIRST page —
it returns address 100000 again, the very address the first call returned:
the addresses are neither pairwise distinct nor non-overlapping. -/
theorem bump_pool_new_page_duplicates_address :
    (bumpRun 900000 1000 1 (bumpFresh 100000, 0)).2 = 100000 ∧
    (bumpRun 900000 1000 9 (bumpFresh 100000, 0)).2 = 100000 ∧
    (bumpRun 900000 1000 8 (bumpFresh 100000, 0)).1.pages.length = 1 ∧
    (bumpRun 900000 1000 9 (bumpFresh 100000, 0)).1.pages.length = 2 := by
  decide

/-- C7 counterexample: `PoolMemory::allocate(2)` on a fresh pool fails with
`std::out_of_range` (poolmemory.hpp:76-80), not with the `InvalidArgument`
error kind the claim states. -/
theorem pool_allocate_two_error_kind :
    pm_allocate_n intCfg freshPool 1000 2 = .error .outOfRange ∧
    Err.outOfRange ≠ Err.invalidArgument :=
  ⟨rfl, by decide⟩

/-- C7 amended: a multi-element `allocate` fails with `OutOfRange`
(`std::out_of_range`), a multi-element `deallocate` fails with `OutOfRange`,
and only `deallocate` of an address contained in no page of the pool fails
with `InvalidArgument`. -/
theorem pool_error_kinds_amended (c : PoolCfg) (st : PoolSt) (b p n : Nat)
    (h1 : 1 < n)
    (hp : ∀ pg ∈ st.pages,
      ¬(pg.base < p - c.blockInfoSize ∧
        p - c.blockInfoSize < pg.base + c.pageSize)) :
    pm_allocate_n c st b n = .error .outOfRange ∧
    pm_deallocate_n c st p n = .error .outOfRange ∧
    pm_deallocate c st p = .error .invalidArgument := by
  refine ⟨?_, ?_, ?_⟩
  · unfold pm_allocate_n
    rw [if_pos h1]
  · unfold pm_deallocate_n
    rw [if_pos h1]
  · unfold pm_deallocate
    have hnone : st.pages.findIdx?
        (fun pg => decide (pg.base < p - c.blockInfoSize ∧
          p - c.blockInfoSize < pg.base + c.pageSize)) = none := by
      rw [List.findIdx?_eq_none_iff]
      intro pg hpg
      simpa using hp pg hpg
    simp only [hnone]

/-- Witness for `pool_error_kinds_amended` on a fresh pool (which owns no
page, so address 999 is contained in no page) with count 2. -/
theorem pool_error_kinds_amended_witness :
    (1 < 2) ∧
    (pm_allocate_n intCfg freshPool 0 2 = .error .outOfRange ∧
     pm_deallocate_n intCfg freshPool 999 2 = .error .outOfRange ∧
     pm_deallocate intCfg freshPool 999 = .error .invalidArgument) :=
  ⟨by decide, pool_error_kinds_amended intCfg freshPool 0 999 2 (by decide)
    (by simp [freshPool])⟩

end DataStructure
